import Mathlib

/-!
# Popularity computation and ranked post listing

Shallow embedding of the popularity / listing core of the backend:

* `PostsPopularity.execute` (application/usecases/comp/post.ts) becomes
  `computePopularity`, with JavaScript IEEE-754 division modelled by `JSNum`
  (finite rationals plus `Infinity` and `NaN`; the only divisions performed
  divide a non-negative like count by `users.length - 1`, so `-Infinity`
  never arises).
* `PostController.readAll` (interface/controllers/post.ts) becomes
  `listPosts`: search filter then one of five sort orders.  `Array.prototype.sort`
  with a consistent comparator is (per the ECMAScript spec) a stable sort, so it
  is modelled by `List.insertionSort` — a stable sort — with the relation
  "comparator result is not positive" (a `NaN` comparator result is also not
  positive, matching the engine's `cmp > 0` tests).
* `String.prototype.toLowerCase` is modelled by ASCII `Char.toLower`,
  `localeCompare` by code-point string order, and `Date` values by their
  `getTime()` integer.
-/

/-- Modelled from the spec: the `LikePost` entity (domain/entities/likepost) is
imported by the `Post` entity but its source file is not provided; per §3 of
the data model a Like has an identifier, a referencing user identifier, a
referencing post identifier and a creation timestamp. -/
structure LikePost where
  id : Int
  userId : Int
  postId : Int
  createdAt : Int
deriving DecidableEq, Repr

/-- The `Post` entity (domain/entities/post.ts).  `date` is the creation
`Date`, represented by its `getTime()` value in milliseconds. -/
structure Post where
  id : Int
  title : String
  content : Option String
  deleted : Bool
  authorId : Int
  date : Int
  authorName : String
  likes : Option (List LikePost)
deriving DecidableEq, Repr

/-- Modelled from the spec: the `User` entity (domain/entities/user) source is
not provided; per §3 a User has identifier, display name, contact identifier,
credential, role and banned flag.  Only `users.length` is ever consumed by the
core. -/
structure User where
  id : Int
  name : String
  email : String
  password : String
  role : String
  banned : Bool
deriving DecidableEq, Repr

/-- A JavaScript number as produced by this core: a finite value (exact, as a
rational — every division the core performs is exactly representable in the
claims considered), positive infinity, or NaN.  Negative zero is identified
with zero, which is observationally equal here (it is only returned, and
serializes as `0`). -/
inductive JSNum where
  | finite (q : ℚ)
  | posInf
  | nan
deriving DecidableEq, Repr

/-- JavaScript division `n / d` for a Nat numerator and Int denominator:
`0 / 0` is NaN, `n / 0` with `n > 0` is `Infinity`, otherwise the exact
quotient (for `d < 0` this is non-positive; `0 / -1` is `-0`, identified
with `0`). -/
def jsDivNat (n : Nat) (d : Int) : JSNum :=
  if d = 0 then (if n = 0 then JSNum.nan else JSNum.posInf)
  else JSNum.finite (Rat.divInt n d)

/-- The JavaScript comparison `x >= 0`: false for NaN, true for Infinity. -/
def jsGe0 : JSNum → Bool
  | JSNum.finite q => decide (0 ≤ q)
  | JSNum.posInf => true
  | JSNum.nan => false

/-- `post.likes?.length || 0`: the number of likes attached, `0` when the
collection is absent (`undefined || 0` and `0 || 0` both give `0`). -/
def jsLikesLen (likes : Option (List LikePost)) : Nat :=
  match likes with
  | some l => l.length
  | none => 0

/-- One output row `{id, popularity}` of the popularity use case. -/
structure PopEntry where
  id : Int
  popularity : JSNum
deriving DecidableEq, Repr

/-- `PostsPopularity.execute` (application/usecases/comp/post.ts), after the
two `readAll` fetches:

```js
return posts.map((post) => {
    const likes = post.likes?.length || 0;
    const totalUsers = users.length;
    const popularity = likes / (totalUsers-1)
    if(popularity >= 0) return { id: post.id, popularity };
    return { id: post.id, popularity: 0 };
});
``` -/
def computePopularity (posts : List Post) (users : List User) : List PopEntry :=
  posts.map (fun post =>
    let likes := jsLikesLen post.likes
    let totalUsers := users.length
    let popularity := jsDivNat likes ((totalUsers : Int) - 1)
    if jsGe0 popularity then { id := post.id, popularity := popularity }
    else { id := post.id, popularity := JSNum.finite 0 })

/-- Spec-side rendering of claim C1, written from the spec's words alone: one
entry per input post, in input order; each entry is
`{id, likeCount / (totalUserCount - 1)}` when that quotient is `>= 0` and
`{id, 0}` otherwise, with `likeCount` the number of likes attached to the post
(`0` when the like collection is absent). -/
def popularitySpec (posts : List Post) (users : List User) : List PopEntry :=
  posts.map (fun post =>
    let likeCount : Nat :=
      match post.likes with
      | some l => l.length
      | none => 0
    let rawScore := jsDivNat likeCount ((users.length : Int) - 1)
    if jsGe0 rawScore then { id := post.id, popularity := rawScore }
    else { id := post.id, popularity := JSNum.finite 0 })

/-- `hay.includes(needle)` on character lists: some split of `hay` has
`needle` as a prefix of its tail. -/
def containsSub (needle : List Char) : List Char → Bool
  | [] => needle.isEmpty
  | c :: t => needle.isPrefixOf (c :: t) || containsSub needle t

/-- `s.toLowerCase()` as a character list, modelled by ASCII lowercasing. -/
def jsToLower (s : String) : List Char :=
  s.toList.map Char.toLower

/-- The search predicate of `PostController.readAll`:

```js
post.title.toLowerCase().includes(searchQuery.toLowerCase()) ||
post.content?.toLowerCase().includes(searchQuery.toLowerCase())
```

With `content` null the second disjunct is `undefined`, hence falsy. -/
def matchesSearch (q : String) (p : Post) : Bool :=
  containsSub (jsToLower q) (jsToLower p.title) ||
    (match p.content with
     | some c => containsSub (jsToLower q) (jsToLower c)
     | none => false)

/-- `if (searchQuery) { posts = posts.filter(...) }` — the filter runs only
when the query is present and non-empty (an empty string is falsy). -/
def applySearch (q : Option String) (posts : List Post) : List Post :=
  match q with
  | some s => if s = "" then posts else posts.filter (matchesSearch s)
  | none => posts

/-- `x || 0` applied to a popularity value: NaN (and `0` itself, and `-0`)
are falsy and become `0`; everything else passes through. -/
def jsOrZero : JSNum → JSNum
  | JSNum.nan => JSNum.finite 0
  | x => x

/-- `postsPopularity.find(p => p.id === a.id)?.popularity || 0`. -/
def lookupPop (table : List PopEntry) (i : Int) : JSNum :=
  jsOrZero (((table.find? (fun e => e.id == i)).map PopEntry.popularity).getD
    (JSNum.finite 0))

/-- "comparator result is not positive" for the numeric comparator
`x - y`: `Infinity - Infinity` and any NaN operand give NaN, which is not
positive, so the stable sort leaves such pairs in place. -/
def popLe (a b : JSNum) : Bool :=
  match a, b with
  | JSNum.finite x, JSNum.finite y => decide (x ≤ y)
  | JSNum.finite _, JSNum.posInf => true
  | JSNum.posInf, JSNum.finite _ => false
  | JSNum.posInf, JSNum.posInf => true
  | JSNum.nan, _ => true
  | _, JSNum.nan => true

/-- Lexicographic code-point order on character lists, the model of
`localeCompare`: `charListLe l₁ l₂` means `l₁` compares less-or-equal. -/
def charListLe : List Char → List Char → Bool
  | [], _ => true
  | _ :: _, [] => false
  | a :: as, b :: bs => if a = b then charListLe as bs else decide (a < b)

/-- `a.localeCompare(b) <= 0`, modelled as code-point order. -/
def localeLe (a b : String) : Bool :=
  charListLe a.toList b.toList

/-- `a.title.localeCompare(b.title) <= 0` (comparator of `nombre-asc`). -/
def nameAscLe (a b : Post) : Bool :=
  localeLe a.title b.title

/-- `b.title.localeCompare(a.title) <= 0` (comparator of `nombre-desc`). -/
def nameDescLe (a b : Post) : Bool :=
  localeLe b.title a.title

/-- `b.date.getTime() - a.date.getTime() <= 0` (default comparator: most
recent first). -/
def dateDescLe (a b : Post) : Bool :=
  decide (b.date ≤ a.date)

/-- `popularityA - popularityB` not positive (comparator of
`popularidad-asc`), with lookups in the popularity table. -/
def popAscLe (table : List PopEntry) (a b : Post) : Bool :=
  popLe (lookupPop table a.id) (lookupPop table b.id)

/-- `popularityB - popularityA` not positive (comparator of
`popularidad-desc`). -/
def popDescLe (table : List PopEntry) (a b : Post) : Bool :=
  popLe (lookupPop table b.id) (lookupPop table a.id)

/-- `posts.sort(cmp)` for a comparator whose "not positive" relation is
`le`: the unique stable sort, given by insertion sort. -/
def jsSort (le : Post → Post → Bool) (l : List Post) : List Post :=
  List.insertionSort (fun a b => le a b = true) l

/-- `PostController.readAll` after the post fetch (interface/controllers/
post.ts, lines 184–214): optional search filter, then the `switch (order)`
sort.  The `popularidad-*` branch builds the popularity table from the full
(unfiltered) post snapshot and the user snapshot via `PostsPopularity`. -/
def listPosts (order q : Option String) (posts : List Post) (users : List User) :
    List Post :=
  let filtered := applySearch q posts
  if order = some "nombre-asc" then jsSort nameAscLe filtered
  else if order = some "nombre-desc" then jsSort nameDescLe filtered
  else if order = some "popularidad-asc" then
    jsSort (popAscLe (computePopularity posts users)) filtered
  else if order = some "popularidad-desc" then
    jsSort (popDescLe (computePopularity posts users)) filtered
  else jsSort dateDescLe filtered

/-- A collaborator call made by the listing pipeline, in the order issued. -/
inductive RepoCall where
  | postsReadAll
  | usersReadAll
deriving DecidableEq, Repr

/-- The fetches issued by `PostsPopularity.execute`: `postRepository.readAll()`
then `userRepository.readAll()`. -/
def popularityCalls : List RepoCall :=
  [RepoCall.postsReadAll, RepoCall.usersReadAll]

/-- `PostController.readAll` together with the trace of collaborator calls it
issues: the controller's own `ReadAllPosts.execute()` first, and — only in the
`popularidad-*` branches — the two further fetches of `PostsPopularity`. -/
def listPostsT (order q : Option String) (posts : List Post) (users : List User) :
    List Post × List RepoCall :=
  let filtered := applySearch q posts
  if order = some "nombre-asc" then
    (jsSort nameAscLe filtered, [RepoCall.postsReadAll])
  else if order = some "nombre-desc" then
    (jsSort nameDescLe filtered, [RepoCall.postsReadAll])
  else if order = some "popularidad-asc" then
    (jsSort (popAscLe (computePopularity posts users)) filtered,
      [RepoCall.postsReadAll] ++ popularityCalls)
  else if order = some "popularidad-desc" then
    (jsSort (popDescLe (computePopularity posts users)) filtered,
      [RepoCall.postsReadAll] ++ popularityCalls)
  else (jsSort dateDescLe filtered, [RepoCall.postsReadAll])

/-- The repositories' visible state: the two stores the use case can reach. -/
structure RepoWorld where
  postStore : List Post
  userStore : List User
deriving DecidableEq, Repr

/-- `PostsPopularity.execute` as a state-passing computation over the
repository world: it reads both stores and performs no write, so the final
world is the input world. -/
def popularityExecute (w : RepoWorld) : List PopEntry × RepoWorld :=
  let posts := w.postStore
  let users := w.userStore
  (computePopularity posts users, w)

/-- A concrete post for witnesses: `n` like records, all from user 99. -/
def samplePost (i : Int) (t : String) (c : Option String) (d : Int) (n : Nat) : Post :=
  { id := i, title := t, content := c, deleted := false, authorId := 1, date := d,
    authorName := "author", likes := some ((List.range n).map (fun j => ⟨j, 99, i, 0⟩)) }

/-- A concrete user for witnesses. -/
def sampleUser (i : Int) : User :=
  { id := i, name := "user", email := "mail", password := "pw", role := "USER",
    banned := false }

/-- Rewrites a like record to reference another user (used to witness that
the like count ignores which user a like references). -/
def retagLike (lk : LikePost) : LikePost :=
  { lk with userId := 42 }

/-- A concrete soft-deleted post for witnesses. -/
def sampleDeletedPost : Post :=
  { id := 3, title := "gone", content := none, deleted := true, authorId := 1,
    date := 4, authorName := "author", likes := none }

/-! ## Helper lemmas -/

/-- The finite branch of `jsDivNat` is exact rational division. -/
theorem jsDivNat_eq_div (n : Nat) (d : Int) (hd : d ≠ 0) :
    jsDivNat n d = JSNum.finite ((n : ℚ) / (d : ℚ)) := by
  simp [jsDivNat, hd, Rat.divInt_eq_div]

/-- `x || 0` never leaves a NaN behind. -/
theorem jsOrZero_ne_nan (v : JSNum) : jsOrZero v ≠ JSNum.nan := by
  cases v <;> simp [jsOrZero]

/-- A popularity lookup never produces NaN. -/
theorem lookupPop_ne_nan (table : List PopEntry) (i : Int) :
    lookupPop table i ≠ JSNum.nan :=
  jsOrZero_ne_nan _

/-- `popLe` is total. -/
theorem popLe_total (a b : JSNum) : popLe a b = true ∨ popLe b a = true := by
  cases a <;> cases b <;> simp [popLe, le_total]

/-- `popLe` is transitive away from NaN. -/
theorem popLe_trans {a b c : JSNum} (ha : a ≠ JSNum.nan) (hb : b ≠ JSNum.nan)
    (hc : c ≠ JSNum.nan) (hab : popLe a b = true) (hbc : popLe b c = true) :
    popLe a c = true := by
  cases a <;> cases b <;> cases c <;> simp_all [popLe]
  exact le_trans hab hbc

/-- `popLe` is antisymmetric away from NaN. -/
theorem popLe_antisymm {a b : JSNum} (ha : a ≠ JSNum.nan) (hb : b ≠ JSNum.nan)
    (hab : popLe a b = true) (hba : popLe b a = true) : a = b := by
  cases a <;> cases b <;> simp_all [popLe]
  exact le_antisymm hab hba

/-- Code-point order is total. -/
theorem charListLe_total : ∀ l₁ l₂ : List Char,
    charListLe l₁ l₂ = true ∨ charListLe l₂ l₁ = true
  | [], l₂ => by cases l₂ <;> simp [charListLe]
  | _ :: _, [] => by simp [charListLe]
  | a :: as, b :: bs => by
    by_cases hab : a = b
    · subst hab
      simpa [charListLe] using charListLe_total as bs
    · rcases lt_or_gt_of_ne hab with h | h
      · exact Or.inl (by simp [charListLe, hab, h])
      · refine Or.inr (by simp [charListLe, Ne.symm hab, h])

/-- Code-point order is transitive. -/
theorem charListLe_trans : ∀ {l₁ l₂ l₃ : List Char},
    charListLe l₁ l₂ = true → charListLe l₂ l₃ = true → charListLe l₁ l₃ = true
  | [], _, l₃, _, _ => by cases l₃ <;> simp [charListLe]
  | _ :: _, [], _, h, _ => by simp [charListLe] at h
  | _ :: _, _ :: _, [], _, h => by simp [charListLe] at h
  | a :: as, b :: bs, c :: cs, h₁, h₂ => by
    by_cases hab : a = b <;> by_cases hbc : b = c
    · subst hab; subst hbc
      simp only [charListLe, if_pos rfl] at h₁ h₂ ⊢
      exact charListLe_trans h₁ h₂
    · subst hab
      simpa [charListLe, hbc] using h₂
    · subst hbc
      simpa [charListLe, hab] using h₁
    · simp only [charListLe, if_neg hab] at h₁
      simp only [charListLe, if_neg hbc] at h₂
      have hac : a < c := lt_trans (of_decide_eq_true h₁) (of_decide_eq_true h₂)
      simp [charListLe, ne_of_lt hac, hac]

/-- Code-point order is antisymmetric. -/
theorem charListLe_antisymm : ∀ {l₁ l₂ : List Char},
    charListLe l₁ l₂ = true → charListLe l₂ l₁ = true → l₁ = l₂
  | [], [], _, _ => rfl
  | [], _ :: _, _, h => by simp [charListLe] at h
  | _ :: _, [], h, _ => by simp [charListLe] at h
  | a :: as, b :: bs, h₁, h₂ => by
    by_cases hab : a = b
    · subst hab
      simp only [charListLe, if_pos rfl] at h₁ h₂
      exact congrArg _ (charListLe_antisymm h₁ h₂)
    · simp only [charListLe, if_neg hab, if_neg (Ne.symm hab)] at h₁ h₂
      exact absurd (of_decide_eq_true h₂) (lt_asymm (of_decide_eq_true h₁))

/-- Equal character data means equal strings. -/
theorem string_toList_inj {s t : String} (h : s.toList = t.toList) : s = t := by
  cases s; cases t
  simp only [String.toList] at h
  exact congrArg String.mk h

/-- `jsSort` permutes its input. -/
theorem jsSort_perm (le : Post → Post → Bool) (l : List Post) :
    (jsSort le l).Perm l :=
  List.perm_insertionSort _ l

/-- Membership is preserved by `jsSort`. -/
theorem mem_jsSort {le : Post → Post → Bool} {l : List Post} {p : Post} :
    p ∈ jsSort le l ↔ p ∈ l :=
  List.mem_insertionSort _

/-- `jsSort` sorts with respect to a total and transitive comparator. -/
theorem jsSort_sorted (le : Post → Post → Bool)
    (htotal : ∀ a b, le a b = true ∨ le b a = true)
    (htrans : ∀ a b c, le a b = true → le b c = true → le a c = true)
    (l : List Post) : (jsSort le l).Pairwise (fun a b => le a b = true) := by
  letI : IsTotal Post (fun a b => le a b = true) := ⟨htotal⟩
  letI : IsTrans Post (fun a b => le a b = true) := ⟨htrans⟩
  exact List.sorted_insertionSort _ l

/-- On a list with no tied elements, sorting with the flipped comparator is
the exact reverse of sorting with the comparator. -/
theorem jsSort_flip_eq_reverse (le : Post → Post → Bool)
    (htotal : ∀ a b, le a b = true ∨ le b a = true)
    (htrans : ∀ a b c, le a b = true → le b c = true → le a c = true)
    (l : List Post)
    (hnotie : l.Pairwise (fun a b => ¬(le a b = true ∧ le b a = true))) :
    jsSort (fun a b => le b a) l = (jsSort le l).reverse := by
  have htotal' : ∀ a b : Post, le b a = true ∨ le a b = true := fun a b => htotal b a
  have htrans' : ∀ a b c : Post, le b a = true → le c b = true → le c a = true :=
    fun a b c h₁ h₂ => htrans c b a h₂ h₁
  have sD := jsSort_sorted (fun a b => le b a) htotal' htrans' l
  have sA := jsSort_sorted le htotal htrans l
  have sArev : ((jsSort le l).reverse).Pairwise (fun a b => le b a = true) :=
    List.pairwise_reverse.mpr sA
  have hsymm : ∀ {a b : Post}, ¬(le a b = true ∧ le b a = true) →
      ¬(le b a = true ∧ le a b = true) := fun h hc => h ⟨hc.2, hc.1⟩
  have hD : (jsSort (fun a b => le b a) l).Pairwise
      (fun a b => ¬(le a b = true ∧ le b a = true)) :=
    ((jsSort_perm _ l).pairwise_iff hsymm).mpr hnotie
  have hArev : ((jsSort le l).reverse).Pairwise
      (fun a b => ¬(le a b = true ∧ le b a = true)) :=
    (((List.reverse_perm _).trans (jsSort_perm le l)).pairwise_iff hsymm).mpr hnotie
  have hperm : (jsSort (fun a b => le b a) l).Perm ((jsSort le l).reverse) :=
    ((jsSort_perm _ l).trans (jsSort_perm le l).symm).trans (List.reverse_perm _).symm
  letI : IsAntisymm Post
      (fun a b => le b a = true ∧ ¬(le a b = true ∧ le b a = true)) :=
    ⟨fun a b h₁ h₂ => absurd ⟨h₂.1, h₁.1⟩ h₁.2⟩
  exact List.eq_of_perm_of_sorted hperm (sD.and hD) (sArev.and hArev)

/-- Every branch of `listPosts` returns a permutation of the filtered list. -/
theorem perm_listPosts (order q : Option String) (posts : List Post)
    (users : List User) : (listPosts order q posts users).Perm (applySearch q posts) := by
  unfold listPosts
  split_ifs <;> exact jsSort_perm _ _

/-- Membership in the listing is membership in the filtered snapshot. -/
theorem mem_listPosts {order q : Option String} {posts : List Post}
    {users : List User} {p : Post} :
    p ∈ listPosts order q posts users ↔ p ∈ applySearch q posts :=
  (perm_listPosts order q posts users).mem_iff

/-- The traced pipeline returns the same posts as `listPosts`. -/
theorem listPostsT_fst (order q : Option String) (posts : List Post)
    (users : List User) :
    (listPostsT order q posts users).1 = listPosts order q posts users := by
  unfold listPostsT listPosts
  split_ifs <;> rfl

/-! ## Claims -/

/-- C1 — `computePopularity` returns exactly one entry per input post, in
input order, each entry being `{id, likeCount / (totalUserCount - 1)}` when
that quotient is `>= 0` and `{id, 0}` otherwise (`likeCount = 0` when the like
collection is absent); an empty post list yields an empty result. -/
theorem computePopularity_refines_spec (posts : List Post) (users : List User) :
    computePopularity posts users = popularitySpec posts users ∧
    (computePopularity posts users).length = posts.length ∧
    computePopularity [] users = [] := by
  refine ⟨?_, ?_, rfl⟩
  · unfold computePopularity popularitySpec
    apply List.map_congr_left
    intro p _
    cases p.likes <;> rfl
  · unfold computePopularity
    exact List.length_map _ _

/-- C2 — degenerate user counts follow the clamp rule over IEEE division:
with exactly one user, a post with zero likes gets `0` (0/0 is NaN, which
fails `>= 0`) and a post with likes gets `Infinity` (which passes `>= 0`
unclamped); with zero users (denominator `-1`) every post gets `0` — positive
like counts are clamped, zero like counts pass the `>= 0` check as `0 / -1`. -/
theorem computePopularity_degenerate (posts : List Post) (users : List User) :
    (users.length = 1 →
      computePopularity posts users = posts.map (fun p =>
        if jsLikesLen p.likes = 0 then { id := p.id, popularity := JSNum.finite 0 }
        else { id := p.id, popularity := JSNum.posInf })) ∧
    (users.length = 0 →
      computePopularity posts users = posts.map (fun p =>
        { id := p.id, popularity := JSNum.finite 0 })) ∧
    jsDivNat 0 0 = JSNum.nan ∧
    jsGe0 JSNum.nan = false ∧
    (∀ k : Nat, k ≠ 0 → jsDivNat k 0 = JSNum.posInf) ∧
    jsGe0 JSNum.posInf = true ∧
    jsDivNat 0 (-1) = JSNum.finite 0 ∧
    jsGe0 (JSNum.finite 0) = true ∧
    (∀ k : Nat, k ≠ 0 → jsGe0 (jsDivNat k (-1)) = false) := by
  have hneg : ∀ k : Nat, k ≠ 0 → jsGe0 (jsDivNat k (-1)) = false := by
    intro k hk
    have hdiv : Rat.divInt k (-1) = -(k : ℚ) := by
      rw [Rat.divInt_eq_div]
      push_cast
      ring
    have hkpos : (0 : ℚ) < (k : ℚ) := by
      exact_mod_cast Nat.pos_of_ne_zero hk
    simp only [jsDivNat, neg_neg, Int.reduceNeg, OfNat.ofNat_ne_zero,
      reduceCtorEq, if_false, hdiv, if_neg, jsGe0]
    rw [decide_eq_false_iff_not]
    intro hcon
    have : (k : ℚ) ≤ 0 := by linarith
    have : (0 : ℚ) < 0 := lt_of_lt_of_le hkpos this
    exact absurd this (lt_irrefl 0)
  refine ⟨?_, ?_, rfl, rfl, ?_, rfl, by decide, rfl, hneg⟩
  · intro h
    unfold computePopularity
    apply List.map_congr_left
    intro p _
    rw [h]
    by_cases hk : jsLikesLen p.likes = 0 <;>
      simp [hk, jsDivNat, jsGe0]
  · intro h
    unfold computePopularity
    apply List.map_congr_left
    intro p _
    rw [h]
    by_cases hk : jsLikesLen p.likes = 0
    · simp only [hk]
      norm_num
      decide
    · have := hneg (jsLikesLen p.likes) hk
      norm_num at this ⊢
      simp [this]
  · intro k hk
    simp [jsDivNat, hk]

/-- Witness for C2 at a concrete snapshot: one post without likes and one
with two likes, against a single user and against no users. -/
theorem computePopularity_degenerate_witness :
    computePopularity [samplePost 1 "t" none 0 0, samplePost 2 "s" none 0 2]
        [sampleUser 1]
      = [{ id := 1, popularity := JSNum.finite 0 },
         { id := 2, popularity := JSNum.posInf }] ∧
    computePopularity [samplePost 1 "t" none 0 0, samplePost 2 "s" none 0 2] []
      = [{ id := 1, popularity := JSNum.finite 0 },
         { id := 2, popularity := JSNum.finite 0 }] :=
  ⟨((computePopularity_degenerate
      [samplePost 1 "t" none 0 0, samplePost 2 "s" none 0 2] [sampleUser 1]).1
        rfl).trans (by decide),
   ((computePopularity_degenerate
      [samplePost 1 "t" none 0 0, samplePost 2 "s" none 0 2] []).2.1
        rfl).trans (by decide)⟩

/-- C8 — the popularity use case is pure: it leaves the repository world
untouched, and running it twice on the unchanged world yields identical
output. -/
theorem computePopularity_pure (w : RepoWorld) :
    (popularityExecute w).2 = w ∧
    (popularityExecute ((popularityExecute w).2)).1 = (popularityExecute w).1 ∧
    (popularityExecute w).1 = computePopularity w.postStore w.userStore :=
  ⟨rfl, rfl, rfl⟩

/-- C10 — the denominator counts every user (any role or banned flag, the
author included): only `users.length` matters; and the like count is the raw
number of Like records, whatever user each references, duplicates included. -/
theorem popularity_counts_all_records (posts : List Post) (users users2 : List User)
    (f : LikePost → LikePost) :
    (users.length = users2.length →
      computePopularity posts users = computePopularity posts users2) ∧
    (∀ b : Bool, ∀ r : String,
      computePopularity posts
          (users.map (fun u => { u with banned := b, role := r }))
        = computePopularity posts users) ∧
    (computePopularity
        (posts.map (fun p => { p with likes := p.likes.map (List.map f) })) users
      = computePopularity posts users) ∧
    (∀ l : List LikePost, jsLikesLen (some l) = l.length) := by
  refine ⟨?_, ?_, ?_, fun l => rfl⟩
  · intro h
    unfold computePopularity
    rw [h]
  · intro b r
    unfold computePopularity
    rw [List.length_map]
  · unfold computePopularity
    rw [List.map_map]
    apply List.map_congr_left
    intro p _
    cases hp : p.likes <;>
      simp [jsLikesLen, hp, Function.comp]

/-- Witness for C10: two user snapshots of equal length (different users)
give the same scores, and rewriting every like's user reference changes
nothing. -/
theorem popularity_counts_all_records_witness :
    computePopularity [samplePost 1 "t" none 0 2] [sampleUser 1]
      = computePopularity [samplePost 1 "t" none 0 2] [sampleUser 7] ∧
    computePopularity
        ([samplePost 1 "t" none 0 2].map
          (fun p => { p with likes := p.likes.map (List.map retagLike) }))
        [sampleUser 1]
      = computePopularity [samplePost 1 "t" none 0 2] [sampleUser 1] :=
  ⟨(popularity_counts_all_records [samplePost 1 "t" none 0 2]
      [sampleUser 1] [sampleUser 7] id).1 rfl,
   (popularity_counts_all_records [samplePost 1 "t" none 0 2]
      [sampleUser 1] [sampleUser 1] retagLike).2.2.1⟩

/-- C5 — with a non-empty search string, the listing keeps exactly the posts
whose title or content matches case-insensitively; a null-content post is
judged on its title alone. -/
theorem listPosts_search_filter (order : Option String) (q : String)
    (posts : List Post) (users : List User) (p : Post) (hq : q ≠ "") :
    (p ∈ listPosts order (some q) posts users ↔
      p ∈ posts ∧ matchesSearch q p = true) ∧
    (p.content = none →
      (p ∈ listPosts order (some q) posts users ↔
        p ∈ posts ∧ containsSub (jsToLower q) (jsToLower p.title) = true)) := by
  have hfil : applySearch (some q) posts = posts.filter (matchesSearch q) := by
    simp [applySearch, hq]
  have hmem : p ∈ listPosts order (some q) posts users ↔
      p ∈ posts ∧ matchesSearch q p = true := by
    rw [mem_listPosts, hfil]
    exact List.mem_filter
  refine ⟨hmem, fun hc => ?_⟩
  rw [hmem]
  unfold matchesSearch
  rw [hc]
  simp

/-- Witness for C5: the null-content post titled `Foo` is found by the
query `fo`. -/
theorem listPosts_search_filter_witness :
    (samplePost 1 "Foo" none 0 0
        ∈ listPosts none (some "fo") [samplePost 1 "Foo" none 0 0] [] ↔
      samplePost 1 "Foo" none 0 0 ∈ [samplePost 1 "Foo" none 0 0] ∧
        matchesSearch "fo" (samplePost 1 "Foo" none 0 0) = true) ∧
    ((samplePost 1 "Foo" none 0 0).content = none →
      (samplePost 1 "Foo" none 0 0
          ∈ listPosts none (some "fo") [samplePost 1 "Foo" none 0 0] [] ↔
        samplePost 1 "Foo" none 0 0 ∈ [samplePost 1 "Foo" none 0 0] ∧
          containsSub (jsToLower "fo")
            (jsToLower (samplePost 1 "Foo" none 0 0).title) = true)) :=
  listPosts_search_filter none "fo" [samplePost 1 "Foo" none 0 0] []
    (samplePost 1 "Foo" none 0 0) (by decide)

/-- C7 — for any order key other than the four recognized ones (including an
absent key) the filtered posts come back sorted by creation date descending,
most recent first. -/
theorem listPosts_default_order (order q : Option String) (posts : List Post)
    (users : List User)
    (h1 : order ≠ some "nombre-asc") (h2 : order ≠ some "nombre-desc")
    (h3 : order ≠ some "popularidad-asc") (h4 : order ≠ some "popularidad-desc") :
    (listPosts order q posts users).Perm (applySearch q posts) ∧
    (listPosts order q posts users).Pairwise (fun a b => b.date ≤ a.date) := by
  have hdef : listPosts order q posts users
      = jsSort dateDescLe (applySearch q posts) := by
    unfold listPosts
    rw [if_neg h1, if_neg h2, if_neg h3, if_neg h4]
  have htot : ∀ a b : Post, dateDescLe a b = true ∨ dateDescLe b a = true := by
    intro a b
    simp only [dateDescLe, decide_eq_true_eq]
    exact le_total _ _
  have htr : ∀ a b c : Post,
      dateDescLe a b = true → dateDescLe b c = true → dateDescLe a c = true := by
    intro a b c hab hbc
    simp only [dateDescLe, decide_eq_true_eq] at hab hbc ⊢
    exact le_trans hbc hab
  refine ⟨?_, ?_⟩
  · rw [hdef]
    exact jsSort_perm _ _
  · rw [hdef]
    exact (jsSort_sorted _ htot htr _).imp (fun h => of_decide_eq_true h)

/-- Witness for C7 at an absent order key and two concrete posts. -/
theorem listPosts_default_order_witness :
    (listPosts none none
        [samplePost 1 "a" none 5 0, samplePost 2 "b" none 9 0] []).Perm
      (applySearch none [samplePost 1 "a" none 5 0, samplePost 2 "b" none 9 0]) ∧
    (listPosts none none
        [samplePost 1 "a" none 5 0, samplePost 2 "b" none 9 0] []).Pairwise
      (fun a b => b.date ≤ a.date) :=
  listPosts_default_order none none
    [samplePost 1 "a" none 5 0, samplePost 2 "b" none 9 0] []
    (by decide) (by decide) (by decide) (by decide)

/-- C9 — the `deleted` flag never excludes a post: a soft-deleted post that
passes the search filter appears in the listing, and marking every post
deleted changes no popularity entry. -/
theorem soft_deleted_not_excluded (order q : Option String) (posts : List Post)
    (users : List User) (p : Post) (_hdel : p.deleted = true)
    (hp : p ∈ applySearch q posts) :
    p ∈ listPosts order q posts users ∧
    computePopularity (posts.map (fun x => { x with deleted := true })) users
      = computePopularity posts users := by
  refine ⟨mem_listPosts.mpr hp, ?_⟩
  unfold computePopularity
  rw [List.map_map]
  apply List.map_congr_left
  intro x _
  rfl

/-- Witness for C9: a soft-deleted post is listed. -/
theorem soft_deleted_not_excluded_witness :
    sampleDeletedPost ∈ listPosts none none [sampleDeletedPost] [] ∧
    computePopularity ([sampleDeletedPost].map (fun x => { x with deleted := true })) []
      = computePopularity [sampleDeletedPost] [] :=
  soft_deleted_not_excluded none none [sampleDeletedPost] [] sampleDeletedPost
    rfl (by decide)

/-- C3 — for the two popularity order keys the listing is a permutation of
the search-filtered subset, sorted (ascending resp. descending) by each
post's popularity looked up in the table computed from the full post/user
snapshot, and an id missing from the table is treated as popularity `0`. -/
theorem listPosts_popularity_order (q : Option String) (posts : List Post)
    (users : List User) :
    (listPosts (some "popularidad-asc") q posts users).Perm (applySearch q posts) ∧
    (listPosts (some "popularidad-asc") q posts users).Pairwise
      (fun a b => popLe (lookupPop (computePopularity posts users) a.id)
        (lookupPop (computePopularity posts users) b.id) = true) ∧
    (listPosts (some "popularidad-desc") q posts users).Perm (applySearch q posts) ∧
    (listPosts (some "popularidad-desc") q posts users).Pairwise
      (fun a b => popLe (lookupPop (computePopularity posts users) b.id)
        (lookupPop (computePopularity posts users) a.id) = true) ∧
    (∀ i : Int, (∀ e ∈ computePopularity posts users, e.id ≠ i) →
      lookupPop (computePopularity posts users) i = JSNum.finite 0) := by
  have hasc : listPosts (some "popularidad-asc") q posts users
      = jsSort (popAscLe (computePopularity posts users)) (applySearch q posts) := by
    unfold listPosts
    rw [if_neg (by decide), if_neg (by decide), if_pos rfl]
  have hdesc : listPosts (some "popularidad-desc") q posts users
      = jsSort (popDescLe (computePopularity posts users)) (applySearch q posts) := by
    unfold listPosts
    rw [if_neg (by decide), if_neg (by decide), if_neg (by decide), if_pos rfl]
  have htotA : ∀ a b : Post, popAscLe (computePopularity posts users) a b = true
      ∨ popAscLe (computePopularity posts users) b a = true :=
    fun a b => popLe_total _ _
  have htrA : ∀ a b c : Post, popAscLe (computePopularity posts users) a b = true
      → popAscLe (computePopularity posts users) b c = true
      → popAscLe (computePopularity posts users) a c = true :=
    fun a b c hab hbc =>
      popLe_trans (lookupPop_ne_nan _ _) (lookupPop_ne_nan _ _)
        (lookupPop_ne_nan _ _) hab hbc
  have htotD : ∀ a b : Post, popDescLe (computePopularity posts users) a b = true
      ∨ popDescLe (computePopularity posts users) b a = true :=
    fun a b => popLe_total _ _
  have htrD : ∀ a b c : Post, popDescLe (computePopularity posts users) a b = true
      → popDescLe (computePopularity posts users) b c = true
      → popDescLe (computePopularity posts users) a c = true :=
    fun a b c hab hbc =>
      popLe_trans (lookupPop_ne_nan _ _) (lookupPop_ne_nan _ _)
        (lookupPop_ne_nan _ _) hbc hab
  refine ⟨?_, ?_, ?_, ?_, ?_⟩
  · rw [hasc]
    exact jsSort_perm _ _
  · rw [hasc]
    exact jsSort_sorted _ htotA htrA _
  · rw [hdesc]
    exact jsSort_perm _ _
  · rw [hdesc]
    exact jsSort_sorted _ htotD htrD _
  · intro i hi
    have hnone : (computePopularity posts users).find? (fun e => e.id == i) = none := by
      rw [List.find?_eq_none]
      intro e he
      simpa using hi e he
    unfold lookupPop
    rw [hnone]
    rfl

/-- Witness for C3: the empty snapshot has an empty popularity table, and a
missing id looks up as popularity `0`. -/
theorem listPosts_popularity_order_witness :
    lookupPop (computePopularity [] []) 5 = JSNum.finite 0 :=
  (listPosts_popularity_order none [] []).2.2.2.2 5 (by decide)

/-- C4 counterexample — with two posts sharing a title (and sharing a
popularity score), the stable sort leaves both orders identical, so the
descending listing is not the reverse of the ascending one; likewise for the
popularity orders. -/
theorem listPosts_reverse_counterexample :
    listPosts (some "nombre-desc") none
        [samplePost 1 "twin" none 0 0, samplePost 2 "twin" none 0 0] []
      ≠ (listPosts (some "nombre-asc") none
        [samplePost 1 "twin" none 0 0, samplePost 2 "twin" none 0 0] []).reverse ∧
    listPosts (some "popularidad-desc") none
        [samplePost 1 "twin" none 0 0, samplePost 2 "twin" none 0 0] []
      ≠ (listPosts (some "popularidad-asc") none
        [samplePost 1 "twin" none 0 0, samplePost 2 "twin" none 0 0] []).reverse := by
  decide

/-- C4 amended — when the filtered posts have pairwise distinct titles, the
`nombre-desc` listing is the exact reverse of the `nombre-asc` listing, and
when they have pairwise distinct looked-up popularity values, the
`popularidad-desc` listing is the exact reverse of the `popularidad-asc`
one. -/
theorem listPosts_reverse_amended (q : Option String) (posts : List Post)
    (users : List User) :
    ((applySearch q posts).Pairwise (fun a b => a.title ≠ b.title) →
      listPosts (some "nombre-desc") q posts users
        = (listPosts (some "nombre-asc") q posts users).reverse) ∧
    ((applySearch q posts).Pairwise (fun a b =>
        lookupPop (computePopularity posts users) a.id
          ≠ lookupPop (computePopularity posts users) b.id) →
      listPosts (some "popularidad-desc") q posts users
        = (listPosts (some "popularidad-asc") q posts users).reverse) := by
  constructor
  · intro hdist
    have hbrA : listPosts (some "nombre-asc") q posts users
        = jsSort nameAscLe (applySearch q posts) := by
      unfold listPosts
      rw [if_pos rfl]
    have hbrD : listPosts (some "nombre-desc") q posts users
        = jsSort nameDescLe (applySearch q posts) := by
      unfold listPosts
      rw [if_neg (by decide), if_pos rfl]
    rw [hbrA, hbrD]
    have hflip : nameDescLe = fun a b => nameAscLe b a := rfl
    rw [hflip]
    apply jsSort_flip_eq_reverse nameAscLe
      (fun a b => charListLe_total _ _)
      (fun a b c hab hbc => charListLe_trans hab hbc)
    exact hdist.imp (fun hne hc =>
      hne (string_toList_inj (charListLe_antisymm hc.1 hc.2)))
  · intro hdist
    have hbrA : listPosts (some "popularidad-asc") q posts users
        = jsSort (popAscLe (computePopularity posts users)) (applySearch q posts) := by
      unfold listPosts
      rw [if_neg (by decide), if_neg (by decide), if_pos rfl]
    have hbrD : listPosts (some "popularidad-desc") q posts users
        = jsSort (popDescLe (computePopularity posts users)) (applySearch q posts) := by
      unfold listPosts
      rw [if_neg (by decide), if_neg (by decide), if_neg (by decide), if_pos rfl]
    rw [hbrA, hbrD]
    have hflip : popDescLe (computePopularity posts users)
        = fun a b => popAscLe (computePopularity posts users) b a := rfl
    rw [hflip]
    apply jsSort_flip_eq_reverse (popAscLe (computePopularity posts users))
      (fun a b => popLe_total _ _)
      (fun a b c hab hbc =>
        popLe_trans (lookupPop_ne_nan _ _) (lookupPop_ne_nan _ _)
          (lookupPop_ne_nan _ _) hab hbc)
    exact hdist.imp (fun hne hc =>
      hne (popLe_antisymm (lookupPop_ne_nan _ _) (lookupPop_ne_nan _ _) hc.1 hc.2))

/-- Witness for the amended C4: two posts with distinct titles and distinct
like counts, two users. -/
theorem listPosts_reverse_amended_witness :
    listPosts (some "nombre-desc") none
        [samplePost 1 "a" none 0 0, samplePost 2 "b" none 0 1]
        [sampleUser 1, sampleUser 2]
      = (listPosts (some "nombre-asc") none
        [samplePost 1 "a" none 0 0, samplePost 2 "b" none 0 1]
        [sampleUser 1, sampleUser 2]).reverse ∧
    listPosts (some "popularidad-desc") none
        [samplePost 1 "a" none 0 0, samplePost 2 "b" none 0 1]
        [sampleUser 1, sampleUser 2]
      = (listPosts (some "popularidad-asc") none
        [samplePost 1 "a" none 0 0, samplePost 2 "b" none 0 1]
        [sampleUser 1, sampleUser 2]).reverse :=
  ⟨(listPosts_reverse_amended none
      [samplePost 1 "a" none 0 0, samplePost 2 "b" none 0 1]
      [sampleUser 1, sampleUser 2]).1 (by decide),
   (listPosts_reverse_amended none
      [samplePost 1 "a" none 0 0, samplePost 2 "b" none 0 1]
      [sampleUser 1, sampleUser 2]).2 (by decide)⟩

/-- C6 counterexample — the claimed effect trace (exactly one post fetch and
one user fetch on every invocation) is wrong on both sides: a popularity
listing fetches the posts twice, and a default listing never fetches the
users. -/
theorem listPosts_effects_counterexample :
    ¬ ((((listPostsT (some "popularidad-asc") none [] []).2.count
            RepoCall.postsReadAll = 1 ∧
         (listPostsT (some "popularidad-asc") none [] []).2.count
            RepoCall.usersReadAll = 1)) ∧
       (((listPostsT none none [] []).2.count RepoCall.postsReadAll = 1 ∧
         (listPostsT none none [] []).2.count RepoCall.usersReadAll = 1))) := by
  decide

/-- C6 amended — the effect trace of the listing: the popularity orders
issue exactly post-fetch, post-fetch, user-fetch (in that order); every other
order issues exactly one post fetch and nothing else; and the traced pipeline
returns the same posts as `listPosts`. -/
theorem listPosts_effects (order q : Option String) (posts : List Post)
    (users : List User) :
    ((order = some "popularidad-asc" ∨ order = some "popularidad-desc") →
      (listPostsT order q posts users).2
        = [RepoCall.postsReadAll, RepoCall.postsReadAll, RepoCall.usersReadAll]) ∧
    ((order ≠ some "popularidad-asc" ∧ order ≠ some "popularidad-desc") →
      (listPostsT order q posts users).2 = [RepoCall.postsReadAll]) ∧
    (listPostsT order q posts users).1 = listPosts order q posts users := by
  refine ⟨?_, ?_, listPostsT_fst order q posts users⟩
  · rintro (h | h) <;> subst h <;> unfold listPostsT
    · rw [if_neg (by decide), if_neg (by decide), if_pos rfl]
      rfl
    · rw [if_neg (by decide), if_neg (by decide), if_neg (by decide), if_pos rfl]
      rfl
  · rintro ⟨h3, h4⟩
    unfold listPostsT
    by_cases h1 : order = some "nombre-asc"
    · rw [if_pos h1]
    · rw [if_neg h1]
      by_cases h2 : order = some "nombre-desc"
      · rw [if_pos h2]
      · rw [if_neg h2, if_neg h3, if_neg h4]

/-- Witness for the amended C6 at a popularity order. -/
theorem listPosts_effects_witness :
    (listPostsT (some "popularidad-asc") none [] []).2
      = [RepoCall.postsReadAll, RepoCall.postsReadAll, RepoCall.usersReadAll] :=
  (listPosts_effects (some "popularidad-asc") none [] []).1 (Or.inl rfl)
